import Mathlib

/-!
Verification of the letovo-computers-server message-ingestion pipeline.

The embedding follows `src/main.go` (the `start` function's MQTT stream
handler), `src/types/types.go` (the `Status` enumeration and the
`MQTTMessage` payload shape) and the SQL schema (`users` / `slots` tables,
with `slots.taken_by` a foreign key referencing `users.id`, and the
pre-seeded sentinel user row `id = 'null'`).

Database tables are modelled as key-indexed partial maps (`String → Option row`),
matching the primary-key uniqueness of the schema.  `UpsertG` with
`updateOnConflict = true`, conflict key `id`, and an update whitelist of all
non-key columns is a total overwrite of the row keyed by `id`; for slots it
can fail with a foreign-key violation when `taken_by` names no user row, in
which case the Go code logs the error and continues with the next slot.
-/

namespace LetovoComputers

/-- Go declaration `type Status int` from `src/types/types.go`; JSON decoding accepts any
integer, the named constants are `iota` values 0..3. -/
abbrev Status := Int

namespace types

/-- Constant `Placed Status = iota` (0). -/
def Placed : Status := 0

/-- Constant `Taken Status = iota` (1). -/
def Taken : Status := 1

/-- Constant `Scanned Status = iota` (2). -/
def Scanned : Status := 2

/-- Constant `Disconnected Status = iota` (3). -/
def Disconnected : Status := 3

/-- Struct `MQTTMessage` from `src/types/types.go`: the decoded JSON payload. -/
structure MQTTMessage where
  message : String
  RFID : String
  slots : String
  status : Status
deriving DecidableEq, Repr

end types

/-- A row of the `slots` table: `id CHAR(5) PRIMARY KEY`,
`is_taken BOOLEAN NOT NULL`, `taken_by VARCHAR(20) NOT NULL REFERENCES users(id)`. -/
structure SlotRow where
  id : String
  takenBy : String
  isTaken : Bool
deriving DecidableEq, Repr

/-- A row of the `users` table: `id VARCHAR(20) PRIMARY KEY`,
`login TEXT NOT NULL DEFAULT ''`. -/
structure UserRow where
  id : String
  login : String
deriving DecidableEq, Repr

/-- The persistent store: both tables, keyed by primary key. -/
structure Store where
  slots : String → Option SlotRow
  users : String → Option UserRow

/-- Log levels used by the handler (zerolog levels that appear in `start`). -/
inductive LogLevel where
  | debug
  | info
  | warn
  | err
deriving DecidableEq, Repr

/-- One emitted log line: its level and its message text. -/
structure LogEntry where
  level : LogLevel
  text : String
deriving DecidableEq, Repr

/-- Model of `strings.Split(s, ";")` from the Go standard library: cut `s` at every
`';'`; the result never drops segments, so `goSplitSemi "" = [""]`. -/
def splitSemiAux : List Char → List Char → List String
  | [], acc => [String.mk acc.reverse]
  | c :: cs, acc =>
      if c = ';' then String.mk acc.reverse :: splitSemiAux cs []
      else splitSemiAux cs (c :: acc)

/-- The call `strings.Split(message.Slots, ";")` as used in `start`. -/
def goSplitSemi (s : String) : List String :=
  splitSemiAux s.toList []

/-- The slot ids a message's `slots` field denotes: the split segments with
the empty ones skipped (the loop body does `if slotID == "" { continue }`). -/
def parseSlots (s : String) : List String :=
  (goSplitSemi s).filter (fun sid => sid ≠ "")

/-- The call `slot.UpsertG(ctx, true, ["id"], Whitelist("taken_by","is_taken"), Infer())`:
insert-or-overwrite the slot row keyed by `r.id`.  Fails with a foreign-key
violation when `taken_by` references no user row (schema:
`FOREIGN KEY (taken_by) REFERENCES users (id)`). -/
def upsertSlotG (users : String → Option UserRow) (t : String → Option SlotRow)
    (r : SlotRow) : Except String (String → Option SlotRow) :=
  if (users r.takenBy).isSome then
    .ok (fun i => if i = r.id then some r else t i)
  else
    .error "foreign key violation on slots.taken_by"

/-- One iteration of the `for _, slotID := range strings.Split(...)` loop in
the `Placed` / `Taken` cases of `start`: skip empty ids, build the row with
the case's `IsTaken` value, upsert, and on upsert failure log the error and
continue. -/
def slotStep (users : String → Option UserRow) (tag : String) (tk : Bool)
    (caseName : String) (acc : (String → Option SlotRow) × List LogEntry)
    (sid : String) : (String → Option SlotRow) × List LogEntry :=
  if sid = "" then acc
  else
    match upsertSlotG users acc.1 ⟨sid, tag, tk⟩ with
    | .ok t => (t, acc.2)
    | .error _ =>
        (acc.1, acc.2 ++ [⟨.err, "failed to upsert slot to db in " ++ caseName ++ " case"⟩])

/-- The call `user.UpsertG(ctx, true, ["id"], Whitelist("login"), Infer())` applied to
`models.User{ID: message.RFID}`: insert-or-overwrite the user row keyed by
`u.id`; the whitelist makes the update write `login` (the struct's zero
value `""`), and on insert the column default is also `''`. -/
def upsertUserG (users : String → Option UserRow) (u : UserRow) :
    String → Option UserRow :=
  fun i => if i = u.id then some u else users i

/-- The message handler registered on the `comps/arduino/stream` topic in
`start`, applied to an already-decoded message: the debug log of the decoded
fields, then the `switch message.Status` dispatch. -/
def handleMessage (st : Store) (m : types.MQTTMessage) : Store × List LogEntry :=
  let dbg : LogEntry := ⟨.debug, m.message⟩
  if m.status = types.Placed then
    let r := (goSplitSemi m.slots).foldl (slotStep st.users m.RFID false "Placed")
      (st.slots, [dbg, ⟨.info, m.RFID ++ " placed computer to " ++ m.slots⟩])
    ({ st with slots := r.1 }, r.2)
  else if m.status = types.Taken then
    let r := (goSplitSemi m.slots).foldl (slotStep st.users m.RFID true "Taken")
      (st.slots, [dbg, ⟨.info, m.RFID ++ " took computer from " ++ m.slots⟩])
    ({ st with slots := r.1 }, r.2)
  else if m.status = types.Scanned then
    ({ st with users := upsertUserG st.users ⟨m.RFID, ""⟩ },
     [dbg, ⟨.info, "scanned a " ++ m.RFID ++ " tag "⟩])
  else
    (st, [dbg])

/-- The full per-payload handler: `json.Unmarshal` is external library code,
modelled as an arbitrary decoding function; on decode failure the handler
logs the error and returns without touching the store. -/
def handlePayload (decode : String → Option types.MQTTMessage) (st : Store)
    (payload : String) : Store × List LogEntry :=
  match decode payload with
  | none => (st, [⟨.err, "failed to unmarshal message"⟩])
  | some m => handleMessage st m

/-- Handling a sequence of payloads in order, threading the store. -/
def handleSeq (decode : String → Option types.MQTTMessage) (st : Store)
    (ps : List String) : Store :=
  ps.foldl (fun s p => (handlePayload decode s p).1) st

/-- The store as seeded by the SQL schema: no slot rows, and the single
sentinel user row `('null', '')`. -/
def seededStore : Store where
  slots := fun _ => none
  users := fun i => if i = "null" then some ⟨"null", ""⟩ else none

/-- One step of the slot loop, store component only (the log part dropped). -/
def slotFoldStep (users : String → Option UserRow) (tag : String) (tk : Bool)
    (t : String → Option SlotRow) (sid : String) : String → Option SlotRow :=
  if sid = "" then t
  else if (users tag).isSome then (fun i => if i = sid then some ⟨sid, tag, tk⟩ else t i)
  else t

/-- The store component of the whole slot loop. -/
def slotFold (users : String → Option UserRow) (tag : String) (tk : Bool)
    (t : String → Option SlotRow) (ids : List String) : String → Option SlotRow :=
  ids.foldl (slotFoldStep users tag tk) t

theorem slotStep_fst (users : String → Option UserRow) (tag : String) (tk : Bool)
    (cn : String) (acc : (String → Option SlotRow) × List LogEntry) (sid : String) :
    (slotStep users tag tk cn acc sid).1 = slotFoldStep users tag tk acc.1 sid := by
  unfold slotStep slotFoldStep upsertSlotG
  by_cases h : sid = "" <;> simp only [h, if_true, if_false, reduceIte]
  by_cases h2 : (users tag).isSome = true <;> simp [h2]

theorem slotStep_snd_ok (users : String → Option UserRow) (tag : String) (tk : Bool)
    (cn : String) (acc : (String → Option SlotRow) × List LogEntry) (sid : String)
    (hu : (users tag).isSome = true) :
    (slotStep users tag tk cn acc sid).2 = acc.2 := by
  unfold slotStep upsertSlotG
  by_cases h : sid = "" <;> simp [h, hu]

theorem foldl_slotStep_fst (users : String → Option UserRow) (tag : String) (tk : Bool)
    (cn : String) (ids : List String) (acc : (String → Option SlotRow) × List LogEntry) :
    (ids.foldl (slotStep users tag tk cn) acc).1 = slotFold users tag tk acc.1 ids := by
  induction ids generalizing acc with
  | nil => rfl
  | cons a rest ih =>
      rw [List.foldl_cons, ih]
      unfold slotFold
      rw [List.foldl_cons, slotStep_fst]

theorem foldl_slotStep_snd_ok (users : String → Option UserRow) (tag : String) (tk : Bool)
    (cn : String) (ids : List String) (acc : (String → Option SlotRow) × List LogEntry)
    (hu : (users tag).isSome = true) :
    (ids.foldl (slotStep users tag tk cn) acc).2 = acc.2 := by
  induction ids generalizing acc with
  | nil => rfl
  | cons a rest ih =>
      rw [List.foldl_cons, ih, slotStep_snd_ok]
      exact hu

theorem slotFold_not_mem (users : String → Option UserRow) (tag : String) (tk : Bool)
    (ids : List String) (t : String → Option SlotRow) (i : String)
    (hi : i ∉ ids.filter (fun s => s ≠ "")) :
    slotFold users tag tk t ids i = t i := by
  induction ids generalizing t with
  | nil => rfl
  | cons a rest ih =>
      have hrest : i ∉ rest.filter (fun s => s ≠ "") := by
        intro hmem
        rcases List.mem_filter.mp hmem with ⟨h1, h2⟩
        exact hi (List.mem_filter.mpr ⟨List.mem_cons_of_mem a h1, h2⟩)
      have hia : a ≠ "" → i ≠ a := by
        intro ha hia
        subst hia
        exact hi (List.mem_filter.mpr ⟨List.mem_cons_self _ _, by simpa using ha⟩)
      unfold slotFold at ih ⊢
      rw [List.foldl_cons, ih _ hrest]
      unfold slotFoldStep
      by_cases ha : a = "" <;> simp only [ha, if_true, if_false, reduceIte]
      by_cases h2 : (users tag).isSome = true <;> simp [h2, hia ha]

theorem slotFold_mem (users : String → Option UserRow) (tag : String) (tk : Bool)
    (ids : List String) (t : String → Option SlotRow) (i : String)
    (hu : (users tag).isSome = true) (hi : i ∈ ids.filter (fun s => s ≠ "")) :
    slotFold users tag tk t ids i = some ⟨i, tag, tk⟩ := by
  induction ids generalizing t with
  | nil => simp at hi
  | cons a rest ih =>
      by_cases hmem : i ∈ rest.filter (fun s => s ≠ "")
      · unfold slotFold at ih ⊢
        rw [List.foldl_cons]
        exact ih _ hmem
      · have hai : a ≠ "" ∧ i = a := by
          rcases List.mem_filter.mp hi with ⟨h1, h2⟩
          have hne : i ≠ "" := by simpa using h2
          rcases List.mem_cons.mp h1 with h | h
          · subst h
            exact ⟨hne, rfl⟩
          · exact absurd (List.mem_filter.mpr ⟨h, h2⟩) hmem
        unfold slotFold
        rw [List.foldl_cons]
        have := slotFold_not_mem users tag tk rest (slotFoldStep users tag tk t a) i hmem
        unfold slotFold at this
        rw [this]
        unfold slotFoldStep
        rcases hai with ⟨ha, rfl⟩
        simp [ha, hu]

theorem slotFold_nouser (users : String → Option UserRow) (tag : String) (tk : Bool)
    (ids : List String) (t : String → Option SlotRow)
    (hu : (users tag).isSome = false) :
    slotFold users tag tk t ids = t := by
  induction ids generalizing t with
  | nil => rfl
  | cons a rest ih =>
      unfold slotFold at ih ⊢
      rw [List.foldl_cons, ih]
      unfold slotFoldStep
      by_cases ha : a = "" <;> simp [ha, hu]

theorem slotFold_idem (users : String → Option UserRow) (tag : String) (tk : Bool)
    (ids : List String) (t : String → Option SlotRow) :
    slotFold users tag tk (slotFold users tag tk t ids) ids
      = slotFold users tag tk t ids := by
  by_cases hu : (users tag).isSome = true
  · funext i
    by_cases hmem : i ∈ ids.filter (fun s => s ≠ "")
    · rw [slotFold_mem users tag tk ids _ i hu hmem,
        slotFold_mem users tag tk ids t i hu hmem]
    · rw [slotFold_not_mem users tag tk ids _ i hmem]
  · rw [slotFold_nouser users tag tk ids _ (Bool.not_eq_true _ ▸ hu)]

theorem handleMessage_placed (st : Store) (m : types.MQTTMessage)
    (h : m.status = 0) :
    (handleMessage st m).1.slots
        = slotFold st.users m.RFID false st.slots (goSplitSemi m.slots)
      ∧ (handleMessage st m).1.users = st.users := by
  unfold handleMessage
  rw [if_pos (show m.status = types.Placed from h)]
  exact ⟨foldl_slotStep_fst _ _ _ _ _ _, rfl⟩

theorem handleMessage_taken (st : Store) (m : types.MQTTMessage)
    (h : m.status = 1) :
    (handleMessage st m).1.slots
        = slotFold st.users m.RFID true st.slots (goSplitSemi m.slots)
      ∧ (handleMessage st m).1.users = st.users := by
  unfold handleMessage
  rw [if_neg (show ¬ m.status = types.Placed by rw [h]; decide),
    if_pos (show m.status = types.Taken from h)]
  exact ⟨foldl_slotStep_fst _ _ _ _ _ _, rfl⟩

theorem handleMessage_scanned (st : Store) (m : types.MQTTMessage)
    (h : m.status = 2) :
    handleMessage st m
      = ({ st with users := upsertUserG st.users ⟨m.RFID, ""⟩ },
         [⟨.debug, m.message⟩, ⟨.info, "scanned a " ++ m.RFID ++ " tag "⟩]) := by
  unfold handleMessage
  rw [if_neg (show ¬ m.status = types.Placed by rw [h]; decide),
    if_neg (show ¬ m.status = types.Taken by rw [h]; decide),
    if_pos (show m.status = types.Scanned from h)]

theorem handleMessage_default (st : Store) (m : types.MQTTMessage)
    (h0 : m.status ≠ 0) (h1 : m.status ≠ 1) (h2 : m.status ≠ 2) :
    handleMessage st m = (st, [⟨.debug, m.message⟩]) := by
  unfold handleMessage
  rw [if_neg (show ¬ m.status = types.Placed from h0),
    if_neg (show ¬ m.status = types.Taken from h1),
    if_neg (show ¬ m.status = types.Scanned from h2)]

theorem handleMessage_placed_snd (st : Store) (m : types.MQTTMessage)
    (h : m.status = 0) (hu : (st.users m.RFID).isSome = true) :
    (handleMessage st m).2
      = [⟨.debug, m.message⟩, ⟨.info, m.RFID ++ " placed computer to " ++ m.slots⟩] := by
  unfold handleMessage
  rw [if_pos (show m.status = types.Placed from h)]
  exact foldl_slotStep_snd_ok _ _ _ _ _ _ hu

theorem handleMessage_taken_snd (st : Store) (m : types.MQTTMessage)
    (h : m.status = 1) (hu : (st.users m.RFID).isSome = true) :
    (handleMessage st m).2
      = [⟨.debug, m.message⟩, ⟨.info, m.RFID ++ " took computer from " ++ m.slots⟩] := by
  unfold handleMessage
  rw [if_neg (show ¬ m.status = types.Placed by rw [h]; decide),
    if_pos (show m.status = types.Taken from h)]
  exact foldl_slotStep_snd_ok _ _ _ _ _ _ hu

/-- A small concrete store for witnesses: the schema's sentinel user plus two
registered tags, one of which has a non-empty login. -/
def demoStore : Store where
  slots := fun _ => none
  users := fun i =>
    if i = "null" then some ⟨"null", ""⟩
    else if i = "T1" then some ⟨"T1", ""⟩
    else if i = "T2" then some ⟨"T2", "alice"⟩
    else none

/-- C1: for every successfully decoded event, dispatch follows the status
integer mapping 0 = Placed, 1 = Taken, 2 = Scanned, 3 = Disconnected; when the
status is Placed the handler upserts, for each slot id in the slot list, the
slot row keyed by that id with takenBy = tagID and isTaken = false, and when
the status is Taken it upserts each listed slot row with takenBy = tagID and
isTaken = true.  (The hypothesis that the tag references an existing user row
is the schema's foreign-key requirement on `slots.taken_by`.) -/
theorem C1_status_dispatch (st : Store) (m : types.MQTTMessage) (sid : String)
    (hu : (st.users m.RFID).isSome = true) (hs : sid ∈ parseSlots m.slots) :
    (m.status = types.Placed →
      (handleMessage st m).1.slots sid = some ⟨sid, m.RFID, false⟩) ∧
    (m.status = types.Taken →
      (handleMessage st m).1.slots sid = some ⟨sid, m.RFID, true⟩) ∧
    (m.status = types.Scanned →
      (handleMessage st m).1.users m.RFID = some ⟨m.RFID, ""⟩ ∧
      (handleMessage st m).1.slots = st.slots) ∧
    (m.status = types.Disconnected → (handleMessage st m).1 = st) := by
  refine ⟨?_, ?_, ?_, ?_⟩
  · intro h
    rw [(handleMessage_placed st m h).1]
    exact slotFold_mem st.users m.RFID false _ st.slots sid hu hs
  · intro h
    rw [(handleMessage_taken st m h).1]
    exact slotFold_mem st.users m.RFID true _ st.slots sid hu hs
  · intro h
    rw [handleMessage_scanned st m h]
    exact ⟨by simp [upsertUserG], rfl⟩
  · intro h
    rw [handleMessage_default st m (by rw [h]; decide) (by rw [h]; decide)
      (by rw [h]; decide)]

/-- C1 witness: a Placed event for registered tag T1 and slot A01 writes the
row (A01, T1, false). -/
theorem C1_status_dispatch_witness :
    (demoStore.users "T1").isSome = true ∧ "A01" ∈ parseSlots "A01" ∧
    (handleMessage demoStore ⟨"msg", "T1", "A01", 0⟩).1.slots "A01"
      = some ⟨"A01", "T1", false⟩ :=
  ⟨by decide, by decide,
    (C1_status_dispatch demoStore ⟨"msg", "T1", "A01", 0⟩ "A01"
      (by decide) (by decide)).1 rfl⟩

/-- C2: for every Placed or Taken event with a non-empty slot list, applying
the handler twice in succession to the freshly-seeded store yields exactly the
same final slot rows as applying it once. -/
theorem C2_idempotent (m : types.MQTTMessage)
    (h : m.status = types.Placed ∨ m.status = types.Taken)
    (_hne : parseSlots m.slots ≠ []) :
    (handleMessage (handleMessage seededStore m).1 m).1.slots
      = (handleMessage seededStore m).1.slots := by
  rcases h with h | h
  · have h1 := handleMessage_placed seededStore m h
    have h2 := handleMessage_placed (handleMessage seededStore m).1 m h
    rw [h2.1, h1.2, h1.1]
    exact slotFold_idem _ _ _ _ _
  · have h1 := handleMessage_taken seededStore m h
    have h2 := handleMessage_taken (handleMessage seededStore m).1 m h
    rw [h2.1, h1.2, h1.1]
    exact slotFold_idem _ _ _ _ _

/-- C2 witness: the Placed event for tag "null" and slots "A01;A02" is
idempotent on the seeded store. -/
theorem C2_idempotent_witness :
    ((0 : Int) = types.Placed ∨ (0 : Int) = types.Taken) ∧
    parseSlots "A01;A02" ≠ [] ∧
    (handleMessage (handleMessage seededStore ⟨"m", "null", "A01;A02", 0⟩).1
        ⟨"m", "null", "A01;A02", 0⟩).1.slots
      = (handleMessage seededStore ⟨"m", "null", "A01;A02", 0⟩).1.slots :=
  ⟨Or.inl rfl, by decide,
    C2_idempotent ⟨"m", "null", "A01;A02", 0⟩ (Or.inl rfl) (by decide)⟩

/-- C3: processing order alone decides the final slot state: Placed(T1,[S1])
then Taken(T2,[S1]) leaves S1 as (isTaken = true, takenBy = T2), and the
reverse order leaves S1 as (isTaken = false, takenBy = T1), for any store in
which both tags are registered users (the schema's foreign-key requirement). -/
theorem C3_order_decides (st : Store) (T1 T2 S1 msg1 msg2 : String)
    (hu1 : (st.users T1).isSome = true) (hu2 : (st.users T2).isSome = true)
    (hS : parseSlots S1 = [S1]) :
    (handleMessage (handleMessage st ⟨msg1, T1, S1, types.Placed⟩).1
        ⟨msg2, T2, S1, types.Taken⟩).1.slots S1 = some ⟨S1, T2, true⟩ ∧
    (handleMessage (handleMessage st ⟨msg2, T2, S1, types.Taken⟩).1
        ⟨msg1, T1, S1, types.Placed⟩).1.slots S1 = some ⟨S1, T1, false⟩ := by
  have hmem : S1 ∈ (goSplitSemi S1).filter (fun s => s ≠ "") := by
    have h : S1 ∈ parseSlots S1 := by
      rw [hS]
      exact List.mem_singleton.mpr rfl
    exact h
  constructor
  · have h1 := handleMessage_placed st ⟨msg1, T1, S1, types.Placed⟩ rfl
    have h2 := handleMessage_taken (handleMessage st ⟨msg1, T1, S1, types.Placed⟩).1
      ⟨msg2, T2, S1, types.Taken⟩ rfl
    rw [h2.1, h1.2]
    exact slotFold_mem st.users T2 true _ _ S1 hu2 hmem
  · have h1 := handleMessage_taken st ⟨msg2, T2, S1, types.Taken⟩ rfl
    have h2 := handleMessage_placed (handleMessage st ⟨msg2, T2, S1, types.Taken⟩).1
      ⟨msg1, T1, S1, types.Placed⟩ rfl
    rw [h2.1, h1.2]
    exact slotFold_mem st.users T1 false _ _ S1 hu1 hmem

/-- C3 witness: with registered tags T1and T2 and slot A01 on the demo store,
both hypotheses hold and the Placed-then-Taken order leaves (A01, T2, true). -/
theorem C3_order_decides_witness :
    (demoStore.users "T1").isSome = true ∧ (demoStore.users "T2").isSome = true ∧
    parseSlots "A01" = ["A01"] ∧
    (handleMessage (handleMessage demoStore ⟨"m1", "T1", "A01", types.Placed⟩).1
        ⟨"m2", "T2", "A01", types.Taken⟩).1.slots "A01" = some ⟨"A01", "T2", true⟩ :=
  ⟨by decide, by decide, by decide,
    (C3_order_decides demoStore "T1" "T2" "A01" "m1" "m2"
      (by decide) (by decide) (by decide)).1⟩

/-- C4: a payload that fails to decode is logged and discarded: the handler
(a total function, so nothing is raised past it) mutates no slot or user row,
emits exactly the unmarshal-failure error log, and a subsequent well-formed
payload is handled exactly as if the bad payload had never arrived. -/
theorem C4_decode_failure (decode : String → Option types.MQTTMessage)
    (st : Store) (p : String) (hd : decode p = none) :
    (handlePayload decode st p).1 = st ∧
    (handlePayload decode st p).2 = [⟨.err, "failed to unmarshal message"⟩] ∧
    ∀ q : String, handleSeq decode st [p, q] = handleSeq decode st [q] := by
  refine ⟨?_, ?_, ?_⟩ <;> simp [handlePayload, hd, handleSeq]

/-- C4 witness: a decoder rejecting everything leaves the seeded store
untouched on a garbage payload. -/
theorem C4_decode_failure_witness :
    ((fun _ : String => (none : Option types.MQTTMessage)) "not json" = none) ∧
    (handlePayload (fun _ => none) seededStore "not json").1 = seededStore :=
  ⟨rfl, (C4_decode_failure (fun _ => none) seededStore "not json" rfl).1⟩

/-- C5 counterexample: the claim says an event with an unknown status integer
makes the handler log a warning; at status 7 the handler emits no entry of
warning level at all (the switch in `start` has no default case), so the claim
as stated is false at this input. -/
theorem C5_counterexample :
    (handleMessage seededStore ⟨"hello", "T1", "A01", 7⟩).2
        = [⟨LogLevel.debug, "hello"⟩] ∧
    (handleMessage seededStore ⟨"hello", "T1", "A01", 7⟩).2.all
        (fun e => decide (e.level ≠ LogLevel.warn)) = true := by
  decide

/-- C5 amended: for every decoded event whose status integer is outside the
known enumeration 0..3, the handler performs zero store mutations and logs no
warning: it falls through the switch silently, emitting only the unconditional
debug log of the decoded message. -/
theorem C5_unknown_status (st : Store) (m : types.MQTTMessage)
    (h0 : m.status ≠ 0) (h1 : m.status ≠ 1) (h2 : m.status ≠ 2)
    (_h3 : m.status ≠ 3) :
    handleMessage st m = (st, [⟨LogLevel.debug, m.message⟩]) :=
  handleMessage_default st m h0 h1 h2

/-- C5 witness: status 7 on the seeded store. -/
theorem C5_unknown_status_witness :
    ((7 : Int) ≠ 0) ∧ ((7 : Int) ≠ 1) ∧ ((7 : Int) ≠ 2) ∧ ((7 : Int) ≠ 3) ∧
    handleMessage seededStore ⟨"hello", "T1", "A01", 7⟩
      = (seededStore, [⟨LogLevel.debug, "hello"⟩]) :=
  ⟨by decide, by decide, by decide, by decide,
    C5_unknown_status seededStore ⟨"hello", "T1", "A01", 7⟩
      (by decide) (by decide) (by decide) (by decide)⟩

/-- C6: slot-list parsing splits on ";" and ignores empty segments: an event
with slot list "A01;;A02;" updates exactly the slots A01 and A02 and no
others, regardless of delimiter placement, and an event whose slot list is
the empty string performs zero slot upserts.  (The registered-tag hypothesis
is the schema's foreign-key requirement for the mutating statuses.) -/
theorem C6_slot_list_parsing (st : Store) (m : types.MQTTMessage)
    (hu : (st.users m.RFID).isSome = true) :
    (m.slots = "A01;;A02;" →
      ((m.status = types.Placed →
          (handleMessage st m).1.slots "A01" = some ⟨"A01", m.RFID, false⟩ ∧
          (handleMessage st m).1.slots "A02" = some ⟨"A02", m.RFID, false⟩) ∧
       (m.status = types.Taken →
          (handleMessage st m).1.slots "A01" = some ⟨"A01", m.RFID, true⟩ ∧
          (handleMessage st m).1.slots "A02" = some ⟨"A02", m.RFID, true⟩) ∧
       (∀ i, i ≠ "A01" → i ≠ "A02" →
          (handleMessage st m).1.slots i = st.slots i))) ∧
    (m.slots = "" → (handleMessage st m).1.slots = st.slots) := by
  constructor
  · intro hm
    have hfilter : (goSplitSemi m.slots).filter (fun s => s ≠ "")
        = ["A01", "A02"] := by
      rw [hm]
      decide
    refine ⟨?_, ?_, ?_⟩
    · intro h
      rw [(handleMessage_placed st m h).1]
      exact ⟨slotFold_mem _ _ _ _ _ _ hu (by rw [hfilter]; decide),
        slotFold_mem _ _ _ _ _ _ hu (by rw [hfilter]; decide)⟩
    · intro h
      rw [(handleMessage_taken st m h).1]
      exact ⟨slotFold_mem _ _ _ _ _ _ hu (by rw [hfilter]; decide),
        slotFold_mem _ _ _ _ _ _ hu (by rw [hfilter]; decide)⟩
    · intro i hi1 hi2
      by_cases h0 : m.status = types.Placed
      · rw [(handleMessage_placed st m h0).1]
        exact slotFold_not_mem _ _ _ _ _ _ (by rw [hfilter]; simp [hi1, hi2])
      by_cases h1 : m.status = types.Taken
      · rw [(handleMessage_taken st m h1).1]
        exact slotFold_not_mem _ _ _ _ _ _ (by rw [hfilter]; simp [hi1, hi2])
      by_cases h2 : m.status = types.Scanned
      · rw [handleMessage_scanned st m h2]
      · rw [handleMessage_default st m h0 h1 h2]
  · intro hm
    have hsplit : goSplitSemi m.slots = [""] := by
      rw [hm]
      decide
    by_cases h0 : m.status = types.Placed
    · rw [(handleMessage_placed st m h0).1, hsplit]
      simp [slotFold, slotFoldStep]
    by_cases h1 : m.status = types.Taken
    · rw [(handleMessage_taken st m h1).1, hsplit]
      simp [slotFold, slotFoldStep]
    by_cases h2 : m.status = types.Scanned
    · rw [handleMessage_scanned st m h2]
    · rw [handleMessage_default st m h0 h1 h2]

/-- C6 witness: a Placed event for tag T1 with slot list "A01;;A02;" writes
the A01 row and leaves an unrelated slot id untouched. -/
theorem C6_slot_list_parsing_witness :
    (demoStore.users "T1").isSome = true ∧
    (handleMessage demoStore ⟨"m", "T1", "A01;;A02;", 0⟩).1.slots "A01"
      = some ⟨"A01", "T1", false⟩ ∧
    (handleMessage demoStore ⟨"m", "T1", "A01;;A02;", 0⟩).1.slots "B99"
      = demoStore.slots "B99" :=
  ⟨by decide,
    (((C6_slot_list_parsing demoStore ⟨"m", "T1", "A01;;A02;", 0⟩
        (by decide)).1 rfl).1 rfl).1,
    ((C6_slot_list_parsing demoStore ⟨"m", "T1", "A01;;A02;", 0⟩
        (by decide)).1 rfl).2.2 "B99" (by decide) (by decide)⟩

/-- C7: foreign-key safety: after a Scanned event for a previously-unknown
tag T has been handled, a user row keyed by T exists, so a subsequent Placed
or Taken event whose tagID is T performs all of its slot upserts without a
referential-integrity violation: every listed slot row is written and no
error is logged. -/
theorem C7_fk_safety (st : Store) (T : String) (m0 m : types.MQTTMessage)
    (_hnew : st.users T = none) (h0 : m0.status = types.Scanned)
    (hT0 : m0.RFID = T) (hm : m.RFID = T) :
    ((handleMessage st m0).1.users T).isSome = true ∧
    (m.status = types.Placed →
      (∀ sid ∈ parseSlots m.slots,
        (handleMessage (handleMessage st m0).1 m).1.slots sid
          = some ⟨sid, T, false⟩) ∧
      ∀ e ∈ (handleMessage (handleMessage st m0).1 m).2,
        e.level ≠ LogLevel.err) ∧
    (m.status = types.Taken →
      (∀ sid ∈ parseSlots m.slots,
        (handleMessage (handleMessage st m0).1 m).1.slots sid
          = some ⟨sid, T, true⟩) ∧
      ∀ e ∈ (handleMessage (handleMessage st m0).1 m).2,
        e.level ≠ LogLevel.err) := by
  have e0 := handleMessage_scanned st m0 h0
  have huT : ((handleMessage st m0).1.users T).isSome = true := by
    rw [e0]
    simp [upsertUserG, hT0]
  have huM : ((handleMessage st m0).1.users m.RFID).isSome = true := by
    rw [hm]
    exact huT
  refine ⟨huT, ?_, ?_⟩
  · intro h
    refine ⟨?_, ?_⟩
    · intro sid hsid
      rw [(handleMessage_placed _ m h).1, hm]
      exact slotFold_mem _ _ _ _ _ _ (hm ▸ huM) hsid
    · rw [handleMessage_placed_snd _ m h huM]
      intro e he
      simp only [List.mem_cons, List.not_mem_nil, or_false] at he
      rcases he with rfl | rfl <;> simp
  · intro h
    refine ⟨?_, ?_⟩
    · intro sid hsid
      rw [(handleMessage_taken _ m h).1, hm]
      exact slotFold_mem _ _ _ _ _ _ (hm ▸ huM) hsid
    · rw [handleMessage_taken_snd _ m h huM]
      intro e he
      simp only [List.mem_cons, List.not_mem_nil, or_false] at he
      rcases he with rfl | rfl <;> simp

/-- C7 witness: scanning unknown tag T9 registers it, after which a Placed
event for T9 writes the A01 row. -/
theorem C7_fk_safety_witness :
    seededStore.users "T9" = none ∧
    ((handleMessage seededStore ⟨"s", "T9", "", 2⟩).1.users "T9").isSome = true ∧
    (handleMessage (handleMessage seededStore ⟨"s", "T9", "", 2⟩).1
        ⟨"p", "T9", "A01", 0⟩).1.slots "A01" = some ⟨"A01", "T9", false⟩ :=
  ⟨by decide,
    (C7_fk_safety seededStore "T9" ⟨"s", "T9", "", 2⟩ ⟨"p", "T9", "A01", 0⟩
      (by decide) rfl rfl rfl).1,
    ((C7_fk_safety seededStore "T9" ⟨"s", "T9", "", 2⟩ ⟨"p", "T9", "A01", 0⟩
      (by decide) rfl rfl rfl).2.1 rfl).1 "A01" (by decide)⟩

/-- C8: a Disconnected event performs zero store mutations, regardless of the
content of the event's slots and RFID fields. -/
theorem C8_disconnected_noop (st : Store) (m : types.MQTTMessage)
    (h : m.status = types.Disconnected) :
    (handleMessage st m).1 = st := by
  rw [handleMessage_default st m (by rw [h]; decide) (by rw [h]; decide)
    (by rw [h]; decide)]

/-- C8 witness: a Disconnected event with non-empty slots and RFID fields
leaves the demo store untouched. -/
theorem C8_disconnected_noop_witness :
    ((3 : Int) = types.Disconnected) ∧
    (handleMessage demoStore ⟨"bye", "T1", "A01;A02", 3⟩).1 = demoStore :=
  ⟨rfl, C8_disconnected_noop demoStore ⟨"bye", "T1", "A01;A02", 3⟩ rfl⟩

theorem upsertUserG_idem (users : String → Option UserRow) (u : UserRow) :
    upsertUserG (upsertUserG users u) u = upsertUserG users u := by
  funext i
  unfold upsertUserG
  by_cases hi : i = u.id <;> simp [hi]

theorem upsertUserG_self (users : String → Option UserRow) (u : UserRow)
    (h : users u.id = some u) : upsertUserG users u = users := by
  funext i
  unfold upsertUserG
  by_cases hi : i = u.id
  · rw [if_pos hi, hi, h]
  · rw [if_neg hi]

/-- C9 counterexample: the claim says a Scanned event for an already
registered tag leaves that user's row unchanged; for tag T2, whose stored
login is "alice", the handler rewrites the row to login "", so the claim as
stated is false at this input. -/
theorem C9_counterexample :
    (handleMessage demoStore ⟨"s", "T2", "", types.Scanned⟩).1.users "T2"
      ≠ demoStore.users "T2" := by
  decide

/-- C9 amended: a Scanned event upserts the user row keyed by tagID with
login set to the empty string; handling the same Scanned event again yields
the same users table (idempotent), and the event leaves the user's row
unchanged exactly when its login was already at the default empty string.  -/
theorem C9_scanned_upsert (st : Store) (m : types.MQTTMessage)
    (h : m.status = types.Scanned) :
    (handleMessage st m).1.users m.RFID = some ⟨m.RFID, ""⟩ ∧
    (handleMessage (handleMessage st m).1 m).1.users
      = (handleMessage st m).1.users ∧
    (st.users m.RFID = some ⟨m.RFID, ""⟩ →
      (handleMessage st m).1.users = st.users) := by
  have e1 := handleMessage_scanned st m h
  have e2 := handleMessage_scanned (handleMessage st m).1 m h
  refine ⟨?_, ?_, ?_⟩
  · rw [e1]
    simp [upsertUserG]
  · rw [e2, e1]
    exact upsertUserG_idem st.users ⟨m.RFID, ""⟩
  · intro hrow
    rw [e1]
    exact upsertUserG_self st.users ⟨m.RFID, ""⟩ hrow

/-- C9 witness: scanning tag T3 on the seeded store writes the row (T3, ""). -/
theorem C9_scanned_upsert_witness :
    ((2 : Int) = types.Scanned) ∧
    (handleMessage seededStore ⟨"s", "T3", "", 2⟩).1.users "T3"
      = some ⟨"T3", ""⟩ :=
  ⟨rfl, (C9_scanned_upsert seededStore ⟨"s", "T3", "", 2⟩ rfl).1⟩

/-- C10: the Scanned handler constructs the user with only the id field set
and whitelists the login column in the upsert, so handling a Scanned event
always writes login = "" for that tag; in particular, for a tag whose
existing user row has a non-empty login, that login is overwritten with the
empty string, changing the row. -/
theorem C10_login_overwrite (m : types.MQTTMessage)
    (h : m.status = types.Scanned) :
    (∀ st : Store, (handleMessage st m).1.users m.RFID = some ⟨m.RFID, ""⟩) ∧
    (∀ st : Store, ∀ l : String, l ≠ "" → st.users m.RFID = some ⟨m.RFID, l⟩ →
      (handleMessage st m).1.users m.RFID ≠ st.users m.RFID) := by
  constructor
  · intro st
    rw [handleMessage_scanned st m h]
    simp [upsertUserG]
  · intro st l hl hrow hEq
    rw [handleMessage_scanned st m h] at hEq
    simp only [upsertUserG, if_pos rfl] at hEq
    rw [hrow] at hEq
    exact hl (by simpa using hEq.symm)

/-- C10 witness: scanning tag T2, whose stored login is "alice", resets the
login to "" and so changes the stored row. -/
theorem C10_login_overwrite_witness :
    ((2 : Int) = types.Scanned) ∧ "alice" ≠ "" ∧
    demoStore.users "T2" = some ⟨"T2", "alice"⟩ ∧
    (handleMessage demoStore ⟨"s", "T2", "", 2⟩).1.users "T2"
      ≠ demoStore.users "T2" :=
  ⟨rfl, by decide, by decide,
    (C10_login_overwrite ⟨"s", "T2", "", 2⟩ rfl).2 demoStore "alice"
      (by decide) (by decide)⟩

end LetovoComputers
